import Mathlib

/-!
# Verification of the YouTube-notes backend note pipeline

This file gives a shallow embedding, in Lean 4, of the note-generation
pipeline of the backend (`apps/backend/modules/notes/service.py` and
`apps/backend/modules/notes/model.py`) and proves properties about it.

Modelling conventions:

* Python strings are Lean `String`s; character-level operations are done on
  `String.data : List Char`.  `str.strip()`, `re.sub(r'\s+', ' ', s)` and
  `" ".join(...)` are embedded as executable functions on `List Char`.
  Whitespace is modelled by the ASCII whitespace characters (space, tab,
  newline, carriage return, vertical tab, form feed); the Unicode-only
  whitespace handled by Python is outside the model.
* Calls into external libraries (the YouTube client, the Gemini client, the
  Deepgram client, `xml.etree.ElementTree.fromstring`, `json.loads`) are
  modelled as explicit parameters carrying the outcome of the call.
* `fastapi.HTTPException` is the structure `HTTPError` (status code and
  detail); `str(e)` of an `HTTPException` is `"{status}: {detail}"` as in
  Starlette.  An arbitrary Python exception is `PyExc`: either an
  `HTTPException` or some other exception carrying its message.
* Mutable database state is passed explicitly as a list of rows.
-/

namespace YTNotes

/-- ASCII whitespace, matching Python `str.isspace` / regex `\s` on ASCII. -/
def pyIsSpace (c : Char) : Bool :=
  c = ' ' || c = '\t' || c = '\n' || c = '\r' || c = '\x0b' || c = '\x0c'

/-- Remove leading whitespace (the left half of Python `str.strip()`). -/
def wsLtrim (l : List Char) : List Char := l.dropWhile pyIsSpace

/-- Remove trailing whitespace (the right half of Python `str.strip()`). -/
def wsRtrim (l : List Char) : List Char := (l.reverse.dropWhile pyIsSpace).reverse

/-- Python `str.strip()` on a character list. -/
def wsStrip (l : List Char) : List Char := wsRtrim (wsLtrim l)

/-- Python `str.strip()` on a `String`. -/
def pyStrip (s : String) : String := ⟨wsStrip s.data⟩

/-- Worker for `re.sub(r'\s+', ' ', s)`: `prevSpace` records whether the
previous character was part of a whitespace run whose single replacement
space has already been emitted. -/
def collapseGo (prevSpace : Bool) : List Char → List Char
  | [] => []
  | c :: r =>
    if pyIsSpace c then
      if prevSpace then collapseGo true r else ' ' :: collapseGo true r
    else c :: collapseGo false r

/-- `re.sub(r'\s+', ' ', s)`: every maximal whitespace run becomes one space. -/
def wsCollapse (l : List Char) : List Char := collapseGo false l

/-- `re.sub(r'\s+', ' ', s).strip()`, the cleanup applied by the caption
parser after joining text fragments. -/
def wsCleanup (l : List Char) : List Char := wsStrip (wsCollapse l)

/-- Tail of `" ".join`: contributes `" " ++ w` for each further word. -/
def joinRest : List (List Char) → List Char
  | [] => []
  | w :: ws => ' ' :: (w ++ joinRest ws)

/-- Python `" ".join(parts)` on character lists. -/
def joinWords : List (List Char) → List Char
  | [] => []
  | w :: ws => w ++ joinRest ws

/-- The whitespace-separated words of a character list (proof device used to
relate the code's cleanup to the specification's wording). -/
def tokensL : List Char → List (List Char)
  | [] => []
  | c :: r =>
    if pyIsSpace c then tokensL r
    else (c :: r.takeWhile (fun x => !pyIsSpace x)) ::
      tokensL (r.dropWhile (fun x => !pyIsSpace x))
termination_by l => l.length
decreasing_by
  · simp
  · exact Nat.lt_succ_of_le (List.dropWhile_sublist _).length_le

/-! ## Caption parser (`NoteService._extract_text_from_xml_transcript`)

`xml.etree.ElementTree.fromstring` is an external library call; its outcome is
modelled as an `Option Xml` parameter: `some root` when parsing succeeded
(with `root` the parsed element tree) and `none` when it raised `ParseError`.
An element's `.text` (the character data before its first child) is modelled
as a `String`, with `""` standing for both Python `None` and the empty
string — the code treats both as falsy. -/

/-- An XML element: tag name, text content, child elements. -/
inductive Xml where
  | elem (tag : String) (text : String) (children : List Xml)

/-- Tag name of an element. -/
def Xml.tag : Xml → String
  | .elem t _ _ => t

/-- Child elements. -/
def Xml.children : Xml → List Xml
  | .elem _ _ cs => cs

/-- The `.text` of every element named `text` in the subtree rooted at `x`
(including `x` itself), in document (preorder) order. -/
def allTextElems : Xml → List String
  | .elem tag t cs =>
    (if tag == "text" then [t] else []) ++
      (cs.attach.map (fun c => allTextElems c.1)).flatten
termination_by x => sizeOf x
decreasing_by
  have h1 := List.sizeOf_lt_of_mem c.2
  simp only [Xml.elem.sizeOf_spec]
  omega

/-- `root.findall('.//text')` text contents: the `<text>` elements strictly
below the root, in document order. -/
def findallTextTexts (root : Xml) : List String :=
  (root.children.map allTextElems).flatten

/-- The XML branch of `_extract_text_from_xml_transcript`: collect the text of
each `<text>` descendant, keep the truthy ones, strip each, join with single
spaces, collapse whitespace runs, strip the ends. -/
def astExtract (root : Xml) : String :=
  ⟨wsCleanup (joinWords
    ((((findallTextTexts root).map String.data).filter
      (fun t => !t.isEmpty)).map wsStrip))⟩

/-- Spec-side formulation (§4.2 / C5): "the concatenation, in document order
and separated by single spaces, of the text content of every `<text>` element,
with consecutive whitespace collapsed to single spaces and both ends
trimmed". -/
def specCaptionText (root : Xml) : String :=
  ⟨wsCleanup (joinWords ((allTextElems root).map String.data))⟩

/-! ### The regex fallback `re.findall(r'<text[^>]*>([^<]+)</text>', s)`

The pattern is deterministic (each character class excludes the character that
follows it), so `findall` is a left-to-right scan: at each position that
starts with `<text`, try to complete a match (`[^>]*` runs to the first `>`,
`([^<]+)` is the nonempty run up to the next `<`, which must start
`</text>`); on success emit the capture and resume after the match, on
failure resume at the next position. -/

/-- Attempt the tail of the pattern at a position already known to start with
`<text`; returns the capture and the remainder of the input after the
match. -/
def tryTextMatch (l : List Char) : Option (List Char × List Char) :=
  match (l.drop 5).dropWhile (fun c => !(c == '>')) with
  | [] => none
  | _ :: r1 =>
    let cap := r1.takeWhile (fun c => !(c == '<'))
    if cap.isEmpty then none
    else
      let r2 := r1.dropWhile (fun c => !(c == '<'))
      if ("</text>".data).isPrefixOf r2 then some (cap, r2.drop 7) else none

/-- The scan loop.  `fuel` is structural fuel; every step either advances one
character or jumps past a completed match, so `length + 1` steps always
suffice (see `scanMatches`). -/
def scanGo : Nat → List Char → List (List Char)
  | 0, _ => []
  | _ + 1, [] => []
  | fuel + 1, c :: rest =>
    if ("<text".data).isPrefixOf (c :: rest) then
      match tryTextMatch (c :: rest) with
      | some (cap, rem) => cap :: scanGo fuel rem
      | none => scanGo fuel rest
    else scanGo fuel rest

/-- `re.findall(r'<text[^>]*>([^<]+)</text>', s)` on `s.data`. -/
def scanMatches (cs : List Char) : List (List Char) :=
  scanGo (cs.length + 1) cs

/-- The `except ET.ParseError` branch: regex extraction, or the raw input when
no match is found. -/
def fallbackExtract (s : String) : String :=
  let ms := scanMatches s.data
  if ms.isEmpty then s
  else ⟨wsCleanup (joinWords (ms.map wsStrip))⟩

/-- `NoteService._extract_text_from_xml_transcript`, with the outcome of
`ET.fromstring` passed as the `parsed` parameter.  Total by construction: the
Python function catches every exception and always returns a string. -/
def extractTextFromXmlTranscript (parsed : Option Xml) (xmlContent : String) :
    String :=
  match parsed with
  | some root => astExtract root
  | none => fallbackExtract xmlContent

/-! ## JSON values and Python dynamics

`json.loads` produces arbitrary Python values; the parts of Python the
generator code exercises are truthiness (`if not x`), `str(x)` and
`isinstance(x, list)`. -/

/-- A decoded JSON value (the Python value produced by `json.loads`). -/
inductive JVal where
  | jstr (s : String)
  | jnum (n : Int)
  | jbool (b : Bool)
  | jnull
  | jlist (xs : List JVal)
  | jobj (fields : List (String × JVal))

/-- Python truthiness of a decoded value. -/
def pyTruthy : JVal → Bool
  | .jstr s => !(s == "")
  | .jnum n => !(n == 0)
  | .jbool b => b
  | .jnull => false
  | .jlist xs => !xs.isEmpty
  | .jobj fs => !fs.isEmpty

/-- Python `repr` of a decoded value (string escaping inside `repr` of a
string is not modelled; no theorem depends on it, only on the fact that
`str` of a container is never blank, since it contains its brackets). -/
def pyRepr : JVal → String
  | .jstr s => "\x27" ++ s ++ "\x27"
  | .jnum n => toString n
  | .jbool b => cond b "True" "False"
  | .jnull => "None"
  | .jlist xs =>
    "[" ++ String.intercalate ", " (xs.attach.map (fun v => pyRepr v.1)) ++ "]"
  | .jobj fs =>
    "\x7b" ++ String.intercalate ", "
      (fs.attach.map (fun p => "\x27" ++ p.1.1 ++ "\x27: " ++ pyRepr p.1.2)) ++
      "\x7d"
termination_by v => sizeOf v
decreasing_by
  · have h1 := List.sizeOf_lt_of_mem v.2
    simp only [JVal.jlist.sizeOf_spec]
    omega
  · have h1 := List.sizeOf_lt_of_mem p.2
    have h2 : sizeOf p.1.2 < sizeOf p.1 := by
      obtain ⟨a, b⟩ := p.1
      simp only [Prod.mk.sizeOf_spec]
      omega
    simp only [JVal.jobj.sizeOf_spec]
    omega

/-- Python `str(x)`: the string itself for strings, `repr` otherwise. -/
def pyStr : JVal → String
  | .jstr s => s
  | v => pyRepr v

/-- `fastapi.HTTPException`: status code and human-readable detail. -/
structure HTTPError where
  status : Nat
  detail : String
deriving DecidableEq

/-- An arbitrary Python exception: an `HTTPException`, or any other exception
carrying its message. -/
inductive PyExc where
  | http (e : HTTPError)
  | other (msg : String)

/-- Python `str(e)` of an exception: Starlette renders an `HTTPException` as
`"{status_code}: {detail}"`; for other exceptions we carry the message. -/
def pyExcStr : PyExc → String
  | .http e => toString e.status ++ ": " ++ e.detail
  | .other m => m

/-! ## Note generator (`NoteService._generate_note_with_gemini`)

The Gemini call is modelled by the parameter `gemini : Except String String`
(`.ok raw` is a response whose `.text.strip()` preprocessing is applied here;
`.error msg` is an exception raised by the client).  `json.loads` is modelled
by the parameter `jsonParse : String → Option NoteData`, returning `none` on
`JSONDecodeError`; of a successfully decoded object only the five keys the
code reads are retained. -/

/-- The five fields the generator reads from the decoded JSON object.
A field is `none` when the key is absent from the object (so that
`dict.get(key, default)` falls back to the default) and `some v` when it is
present with value `v` (including `some .jnull` for an explicit JSON
`null`). -/
structure NoteData where
  video_title : Option JVal := none
  channel_name : Option JVal := none
  summary : Option JVal := none
  key_points : Option JVal := none
  timestamps : Option JVal := none

/-- The structured `result` dict built by `_generate_note_with_gemini` just
before validation. -/
structure GenOut where
  video_title : JVal
  channel_name : JVal
  summary : JVal
  key_points : List JVal
  timestamps : List JVal

/-- `xs if isinstance(xs, list) else []` (defensive type narrowing). -/
def coerceList (v : JVal) : List JVal :=
  match v with
  | .jlist xs => xs
  | _ => []

/-- Lines 300–310: `result = {...}` with `.get` defaults and the
list coercions. -/
def buildResult (nd : NoteData) (videoTitle channelName : String) : GenOut :=
  { video_title := nd.video_title.getD (.jstr videoTitle)
    channel_name := nd.channel_name.getD (.jstr channelName)
    summary := nd.summary.getD (.jstr "")
    key_points := coerceList (nd.key_points.getD (.jlist []))
    timestamps := coerceList (nd.timestamps.getD (.jlist [])) }

/-- `not result[f] or not str(result[f]).strip()` for the narrative fields. -/
def strFieldMissing (v : JVal) : Bool :=
  !pyTruthy v || pyStrip (pyStr v) == ""

/-- Lines 312–327 (and, identically, lines 446–462 of `create_note`): collect
the names of the required fields that are missing.  For `key_points` and
`timestamps` the source condition is
`not xs or not isinstance(xs, list) or len(xs) == 0`; after the list coercion
the value is always a Python list, so the condition is emptiness. -/
def missingRequiredFields (r : GenOut) : List String :=
  (if strFieldMissing r.video_title then ["video_title"] else []) ++
  (if strFieldMissing r.channel_name then ["channel_name"] else []) ++
  (if strFieldMissing r.summary then ["summary"] else []) ++
  (if r.key_points.isEmpty then ["key_points"] else []) ++
  (if r.timestamps.isEmpty then ["timestamps"] else [])

/-- Detail string of the generator's validation failure (line 332). -/
def missingDetail (missing : List String) : String :=
  "Failed to generate complete note. Missing required fields: " ++
    String.intercalate ", " missing ++
    ". Please try again or choose a different video."

/-- Lines 329–333: raise the internal-error condition naming every missing
field, or return the validated result. -/
def validateGen (r : GenOut) : Except PyExc GenOut :=
  if (missingRequiredFields r).isEmpty then .ok r
  else .error (.http ⟨500, missingDetail (missingRequiredFields r)⟩)

/-- Lines 270–277: strip a leading ```` ```json ```` or ```` ``` ```` marker
and a trailing ```` ``` ```` marker. -/
def fenceCore (cs : List Char) : List Char :=
  let c1 := if ("```json".data).isPrefixOf cs then cs.drop 7
            else if ("```".data).isPrefixOf cs then cs.drop 3
            else cs
  if ("```".data).isSuffixOf c1 then c1.take (c1.length - 3) else c1

/-- `response.text.strip()`, fence stripping, final `.strip()`: the text
handed to `json.loads`. -/
def gemResponseText (raw : String) : String :=
  ⟨wsStrip (fenceCore (wsStrip raw.data))⟩

/-- Python `s[:1000] if len(s) > 1000 else s`. -/
def pySlice1000 (s : String) : String :=
  if s.data.length > 1000 then ⟨s.data.take 1000⟩ else s

/-- Lines 287–298: the deterministic fallback object substituted when
`json.loads` raises. -/
def fallbackNoteData (responseText videoTitle channelName : String) : NoteData :=
  { video_title := some (.jstr videoTitle)
    channel_name := some (.jstr channelName)
    summary := some (.jstr (pySlice1000 responseText))
    key_points := some (.jlist [.jstr "Key point extracted from video"])
    timestamps := some (.jlist [.jobj
      [("time", .jstr "00:00"),
       ("description", .jstr
         "Video content extracted (parsing failed, using fallback)")]]) }

/-- Lines 280–298: the decoded object, or the fallback on parse failure. -/
def noteDataOf (jsonParse : String → Option NoteData) (rt : String)
    (videoTitle channelName : String) : NoteData :=
  match jsonParse rt with
  | some nd => nd
  | none => fallbackNoteData rt videoTitle channelName

/-- The body of the generator's `try` block after the Gemini call outcome is
known. -/
def generateInner (jsonParse : String → Option NoteData)
    (gemini : Except String String) (videoTitle channelName : String) :
    Except PyExc GenOut :=
  match gemini with
  | .error msg => .error (.other msg)
  | .ok raw =>
    validateGen (buildResult
      (noteDataOf jsonParse (gemResponseText raw) videoTitle channelName)
      videoTitle channelName)

/-- Lines 338–343: `except Exception as e` — note that this catches the
`HTTPException` raised by the validation at line 330 as well, and re-wraps
it. -/
def wrapGen : Except PyExc GenOut → Except HTTPError GenOut
  | .ok r => .ok r
  | .error e => .error ⟨500, "Failed to generate note with AI: " ++ pyExcStr e⟩

/-- `NoteService._generate_note_with_gemini`.  The subtitle text and video URL
only feed the prompt, whose effect is subsumed by the `gemini` outcome
parameter. -/
def generateNoteWithGemini (jsonParse : String → Option NoteData)
    (gemini : Except String String)
    (_subtitleText _videoUrl videoTitle channelName : String) :
    Except HTTPError GenOut :=
  wrapGen (generateInner jsonParse gemini videoTitle channelName)

/-- The detail of an error outcome (`""` for success); lets theorems compare
surfaced details by computation. -/
def errDetail : Except HTTPError α → String
  | .error e => e.detail
  | .ok _ => ""

/-! ## Persisted notes and the pipeline orchestrator
(`NoteService.create_note`, `NoteService.update_note`)

The database session is modelled as a list of rows passed in and returned.
`datetime.utcnow()` is the abstract instant `now : Nat`; the id the database
assigns on commit is the parameter `freshId`.  The narrative columns keep the
`JVal` the code assigned (`model.py` declares them `Optional[str]`; the ORM
coercion of non-string values is outside the model), and the
`key_points`/`timestamps` columns hold the list the code serialises with
`json.dumps` (the `dumps` encoding itself, an injective stdlib serialisation,
is left transparent). -/

/-- A row of the `notes` table. -/
structure Note where
  id : Nat
  user_id : Nat
  youtube_url : String
  video_title : Option JVal
  channel_name : Option JVal
  summary : Option JVal
  key_points : Option (List JVal)
  timestamps : Option (List JVal)
  duration_in_seconds : Option Int
  thumbnail_url : Option String
  views : Option Int
  likes : Option Int
  publish_date : Option Nat
  created_at : Nat
  updated_at : Nat

/-- The dictionary returned by
`get_video_metadata_from_youtube_video_url` (an external acquisition whose
outcome is passed to `create_note` as a parameter). -/
structure VideoMeta where
  caption : String
  title : String
  channel_name : String
  duration_in_seconds : Option Int
  thumbnail_url : Option String
  views : Option Int
  likes : Option Int
  publish_date : Option Nat

/-- Result of a `create_note` run: the returned value or raised error, the
database after the run, and whether the transcript acquirer and the note
generator were invoked. -/
structure CreateOut where
  result : Except HTTPError Note
  db : List Note
  acquirerCalled : Bool
  generatorCalled : Bool

/-- The `WHERE` clause of the idempotency pre-check (lines 411–414). -/
def noteMatches (userId : Nat) (url : String) (n : Note) : Bool :=
  n.user_id == userId && n.youtube_url == url

/-- `except HTTPException: raise` / `except Exception as e: raise
HTTPException(500, f"Failed to create note: {e}")` (lines 495–503). -/
def orchWrap : PyExc → HTTPError
  | .http e => e
  | .other msg => ⟨500, "Failed to create note: " ++ msg⟩

/-- Detail of the deliberate not-found condition (lines 431–434). -/
def noCaptionsDetail : String :=
  "No captions/subtitles available for this video. Please choose a video with captions."

/-- Detail of the orchestrator-level validation failure (line 467). -/
def orchMissingDetail (missing : List String) : String :=
  "Cannot create note: Missing required fields (" ++
    String.intercalate ", " missing ++
    "). The AI was unable to generate complete note data. Please try again or choose a different video."

/-- Lines 470–485: the `Note(...)` row constructed from the validated
generator output and the video metadata; `json.dumps(xs) if xs else None`
serialises a truthy (non-empty) list and stores `NULL` otherwise. -/
def mkDbNote (gen : GenOut) (video : VideoMeta) (userId : Nat) (url : String)
    (freshId now : Nat) : Note :=
  { id := freshId
    user_id := userId
    youtube_url := url
    video_title := some gen.video_title
    channel_name := some gen.channel_name
    summary := some gen.summary
    key_points :=
      if gen.key_points.isEmpty then none else some gen.key_points
    timestamps :=
      if gen.timestamps.isEmpty then none else some gen.timestamps
    duration_in_seconds := video.duration_in_seconds
    thumbnail_url := video.thumbnail_url
    views := video.views
    likes := video.likes
    publish_date := video.publish_date
    created_at := now
    updated_at := now }

/-- `NoteService.create_note`.  `acquire` is the outcome of
`get_video_metadata_from_youtube_video_url` (that function itself only raises
`HTTPException`s, but the `try` block is modelled against arbitrary
exceptions); `jsonParse`/`gemini` parametrise the generator call as in
`generateNoteWithGemini`.  The captions check `not subtitle or not
subtitle.strip()` is equivalent to `subtitle.strip() == ""`. -/
def createNote (acquire : Except PyExc VideoMeta)
    (jsonParse : String → Option NoteData) (gemini : Except String String)
    (userId : Nat) (url : String) (db : List Note) (freshId now : Nat) :
    CreateOut :=
  match db.find? (noteMatches userId url) with
  | some existing => ⟨.ok existing, db, false, false⟩
  | none =>
    match acquire with
    | .error e => ⟨.error (orchWrap e), db, true, false⟩
    | .ok video =>
      if pyStrip video.caption == "" then
        ⟨.error (orchWrap (.http ⟨404, noCaptionsDetail⟩)), db, true, false⟩
      else
        match generateNoteWithGemini jsonParse gemini video.caption url
          video.title video.channel_name with
        | .error e => ⟨.error e, db, true, true⟩
        | .ok gen =>
          if (missingRequiredFields gen).isEmpty then
            ⟨.ok (mkDbNote gen video userId url freshId now),
              db ++ [mkDbNote gen video userId url freshId now], true, true⟩
          else
            ⟨.error (orchWrap (.http
                ⟨500, orchMissingDetail (missingRequiredFields gen)⟩)), db,
              true, true⟩

/-- The invariant claimed for persisted notes: non-blank title, channel and
summary (truthy and non-empty after trimming) and non-empty
`key_points`/`timestamps` lists. -/
def goodNoteB (n : Note) : Bool :=
  (match n.video_title with
   | some v => pyTruthy v && !(pyStrip (pyStr v) == "")
   | none => false) &&
  (match n.channel_name with
   | some v => pyTruthy v && !(pyStrip (pyStr v) == "")
   | none => false) &&
  (match n.summary with
   | some v => pyTruthy v && !(pyStrip (pyStr v) == "")
   | none => false) &&
  (match n.key_points with
   | some l => !l.isEmpty
   | none => false) &&
  (match n.timestamps with
   | some l => !l.isEmpty
   | none => false)

/-! ## `NoteService.update_note` and `NoteService._get_note_by_id` -/

/-- State of one field of a `NoteUpdate` payload: absent (excluded by
`exclude_unset=True`), explicitly `null`, or set to a value. -/
inductive Upd (α : Type) where
  | unset
  | setNull
  | setVal (v : α)

/-- A `NoteUpdate` payload (`model.py` lines 192–213): every field optional,
none validated. -/
structure NoteUpd where
  video_title : Upd String := .unset
  channel_name : Upd String := .unset
  summary : Upd String := .unset
  key_points : Upd (List String) := .unset
  timestamps : Upd (List JVal) := .unset
  duration_in_seconds : Upd Int := .unset
  thumbnail_url : Upd String := .unset
  views : Upd Int := .unset
  likes : Upd Int := .unset
  publish_date : Upd Nat := .unset

/-- `setattr` for a narrative (string) column. -/
def updNarr (u : Upd String) (cur : Option JVal) : Option JVal :=
  match u with
  | .unset => cur
  | .setNull => none
  | .setVal s => some (.jstr s)

/-- `setattr` for a plain optional column. -/
def updOpt (u : Upd α) (cur : Option α) : Option α :=
  match u with
  | .unset => cur
  | .setNull => none
  | .setVal v => some v

/-- The `for key, value in update_data.items(): setattr(...)` loop plus
`note.updated_at = datetime.utcnow()` (lines 612–621).  A provided
`key_points`/`timestamps` list is serialised (`json.dumps`) unless it is
`None`, which is assigned directly. -/
def applyNoteUpd (u : NoteUpd) (n : Note) (now : Nat) : Note :=
  { n with
    video_title := updNarr u.video_title n.video_title
    channel_name := updNarr u.channel_name n.channel_name
    summary := updNarr u.summary n.summary
    key_points :=
      match u.key_points with
      | .unset => n.key_points
      | .setNull => none
      | .setVal l => some (l.map JVal.jstr)
    timestamps := updOpt u.timestamps n.timestamps
    duration_in_seconds := updOpt u.duration_in_seconds n.duration_in_seconds
    thumbnail_url := updOpt u.thumbnail_url n.thumbnail_url
    views := updOpt u.views n.views
    likes := updOpt u.likes n.likes
    publish_date := updOpt u.publish_date n.publish_date
    updated_at := now }

/-- `NoteService._get_note_by_id`: 404 when absent, 403 when owned by another
user. -/
def getNoteById (noteId userId : Nat) (db : List Note) : Except HTTPError Note :=
  match db.find? (fun n => n.id == noteId) with
  | none => .error ⟨404, "Note with ID " ++ toString noteId ++ " not found"⟩
  | some n =>
    if n.user_id == userId then .ok n
    else .error ⟨403, "You don\x27t have permission to access this note"⟩

/-- Result of an `update_note` run. -/
structure UpdateOut where
  result : Except HTTPError Note
  db : List Note

/-- `NoteService.update_note` (lines 588–629): fetch, apply the partial
update, stamp `updated_at`, commit.  No validation of the updated values. -/
def updateNote (noteId userId : Nat) (u : NoteUpd) (db : List Note)
    (now : Nat) : UpdateOut :=
  match getNoteById noteId userId db with
  | .error e => ⟨.error e, db⟩
  | .ok note =>
    let note2 := applyNoteUpd u note now
    ⟨.ok note2, db.map (fun m => if m.id == noteId then note2 else m)⟩

/-! ## Audio transcription scratch files
(`NoteService._get_subtitle_from_audio`)

The filesystem is the list of scratch-file names present in
`temp_audio_files/`.  The YouTube download, the transcoding and the Deepgram
call are external; the model covers the runs the claim is about — download
and transcoding succeeded — with the transcription outcome passed as
`transcribe` (`.error msg` = the Deepgram call raised).  `defaultFilename` is
`ys.default_filename`, the container file written by the download. -/

/-- Python `s.split("=")` (single-character separator, empties kept). -/
def splitEq : List Char → List (List Char)
  | [] => [[]]
  | c :: r =>
    if c = '=' then [] :: splitEq r
    else
      match splitEq r with
      | [] => [[c]]
      | w :: ws => (c :: w) :: ws

/-- `video_url.split("=")[-1] + ".wav"` (line 768). -/
def wavFileName (videoUrl : String) : String :=
  ⟨(splitEq videoUrl.data).getLastD []⟩ ++ ".wav"

/-- Result of a `_get_subtitle_from_audio` run: transcript or raised error,
plus the scratch files remaining on disk. -/
structure AudioOut where
  result : Except HTTPError String
  fs : List String

/-- `NoteService._get_subtitle_from_audio` (lines 752–807): download the
container, transcode to wav, remove the container; then transcribe.  On
success the wav is removed and the transcript returned; an exception from
the transcription call is raised as an `HTTPException`, which the function's
own outer `except Exception` catches and wraps again — without removing
the wav. -/
def getSubtitleFromAudio (transcribe : Except String String)
    (defaultFilename : String) (videoUrl : String) (fs : List String) :
    AudioOut :=
  match transcribe with
  | .ok t =>
    ⟨.ok t,
     ((fs ++ [defaultFilename, wavFileName videoUrl]).erase
        defaultFilename).erase (wavFileName videoUrl)⟩
  | .error msg =>
    ⟨.error ⟨500, "Failed to get subtitle from audio of YouTube video: " ++
        pyExcStr (.http
          ⟨500, "Failed to convert audio to text: " ++ msg⟩)⟩,
     (fs ++ [defaultFilename, wavFileName videoUrl]).erase defaultFilename⟩

/-! ## Sample data used by witnesses -/

/-- A stored note satisfying the invariant. -/
def sampleNote : Note :=
  { id := 1
    user_id := 7
    youtube_url := "https://youtu.be/abc"
    video_title := some (.jstr "A video")
    channel_name := some (.jstr "A channel")
    summary := some (.jstr "A summary")
    key_points := some [.jstr "point one"]
    timestamps := some [.jobj [("time", .jstr "00:01"),
      ("description", .jstr "intro")]]
    duration_in_seconds := some 60
    thumbnail_url := none
    views := some 5
    likes := none
    publish_date := none
    created_at := 3
    updated_at := 4 }

/-- A fully populated decoded generator response. -/
def fullNoteData : NoteData :=
  { video_title := some (.jstr "A video")
    channel_name := some (.jstr "A channel")
    summary := some (.jstr "A summary")
    key_points := some (.jlist [.jstr "point one"])
    timestamps := some (.jlist [.jobj [("time", .jstr "00:00"),
      ("description", .jstr "intro")]]) }

/-- Acquisition metadata with a non-blank caption. -/
def sampleMeta : VideoMeta :=
  { caption := "hello world"
    title := "A video"
    channel_name := "A channel"
    duration_in_seconds := some 10
    thumbnail_url := none
    views := none
    likes := none
    publish_date := none }

/-- Claim-side reading (C3) of a missing narrative field: empty (falsy) or
blank after trimming. -/
def narrativeBad (v : JVal) : Prop :=
  pyTruthy v = false ∨ pyStrip (pyStr v) = ""

instance (v : JVal) : Decidable (narrativeBad v) := by
  unfold narrativeBad
  infer_instance

/-- Acquisition metadata whose caption text is whitespace only. -/
def blankMeta : VideoMeta :=
  { caption := "   "
    title := "A video"
    channel_name := "A channel"
    duration_in_seconds := none
    thumbnail_url := none
    views := none
    likes := none
    publish_date := none }

/-- A small caption document: a `<transcript>` root with three `<text>`
children (one of them empty). -/
def sampleDoc : Xml :=
  .elem "transcript" ""
    [.elem "text" "  Hello \n" [], .elem "text" "" [],
     .elem "text" "world" []]

/-- A generator result with a blank summary and an empty `key_points` list. -/
def partialGen : GenOut :=
  { video_title := .jstr "A video"
    channel_name := .jstr "A channel"
    summary := .jstr "  "
    key_points := []
    timestamps := [.jobj [("time", .jstr "00:00")]] }

/-! ## Whitespace-normalisation lemmas

These relate the code's cleanup (`strip` each fragment, drop falsy fragments,
join with `" "`, collapse whitespace runs, strip the ends) to the
specification's wording (join the raw fragments with single spaces, collapse
consecutive whitespace, trim the ends). -/

theorem length_dropWhile_le (p : Char → Bool) (l : List Char) :
    (l.dropWhile p).length ≤ l.length :=
  (List.dropWhile_sublist p).length_le

theorem allTextElems_def (tag : String) (t : String) (cs : List Xml) :
    allTextElems (.elem tag t cs) =
      (if tag == "text" then [t] else []) ++ (cs.map allTextElems).flatten := by
  rw [allTextElems, List.attach_map_val cs allTextElems]

theorem pyIsSpace_space : pyIsSpace ' ' = true := by decide

theorem dropWhile_eq_self_of_neg (p : Char → Bool) (l : List Char)
    (h : ∀ a ∈ l, p a = false) : l.dropWhile p = l := by
  induction l with
  | nil => rfl
  | cons a as ih =>
    have ha : ¬ p a = true := by simp [h a (by simp)]
    rw [List.dropWhile_cons_of_neg ha]

theorem tokensL_nil : tokensL [] = [] := by simp [tokensL]

theorem tokensL_cons_sp {c : Char} (r : List Char) (h : pyIsSpace c = true) :
    tokensL (c :: r) = tokensL r := by
  rw [tokensL]
  simp [h]

theorem tokensL_cons_nonsp {c : Char} (r : List Char) (h : pyIsSpace c = false) :
    tokensL (c :: r) =
      (c :: r.takeWhile (fun x => !pyIsSpace x)) ::
        tokensL (r.dropWhile (fun x => !pyIsSpace x)) := by
  rw [tokensL]
  simp [h]

theorem tokensL_ltrim (l : List Char) :
    tokensL (l.dropWhile pyIsSpace) = tokensL l := by
  induction l with
  | nil => rfl
  | cons c r ih =>
    by_cases h : pyIsSpace c = true
    · rw [List.dropWhile_cons_of_pos h, ih, tokensL_cons_sp r h]
    · rw [List.dropWhile_cons_of_neg h]

theorem tokensL_of_all_sp (l : List Char) (h : ∀ a ∈ l, pyIsSpace a = true) :
    tokensL l = [] := by
  induction l with
  | nil => exact tokensL_nil
  | cons c r ih =>
    rw [tokensL_cons_sp r (h c (by simp))]
    exact ih (fun a ha => h a (by simp [ha]))

theorem wsRtrim_nil : wsRtrim [] = [] := rfl

theorem wsRtrim_eq_nil_iff (z : List Char) :
    wsRtrim z = [] ↔ ∀ a ∈ z, pyIsSpace a = true := by
  unfold wsRtrim
  rw [List.reverse_eq_nil_iff, List.dropWhile_eq_nil_iff]
  constructor
  · intro h a ha
    exact h a (by simp [ha])
  · intro h a ha
    exact h a (by simpa using ha)

theorem wsRtrim_append_nonsp (w z : List Char)
    (hw : ∀ a ∈ w, pyIsSpace a = false) : wsRtrim (w ++ z) = w ++ wsRtrim z := by
  unfold wsRtrim
  rw [List.reverse_append, List.dropWhile_append]
  by_cases h : (z.reverse.dropWhile pyIsSpace).isEmpty
  · have hz : z.reverse.dropWhile pyIsSpace = [] := by
      simpa [List.isEmpty_iff] using h
    have hwrev : w.reverse.dropWhile pyIsSpace = w.reverse :=
      dropWhile_eq_self_of_neg _ _ (fun a ha => hw a (by simpa using ha))
    simp [h, hz, hwrev]
  · simp [h]

theorem wsRtrim_cons_of_ne_nil (c : Char) (z : List Char) (h : wsRtrim z ≠ []) :
    wsRtrim (c :: z) = c :: wsRtrim z := by
  unfold wsRtrim
  have : (c :: z).reverse = z.reverse ++ [c] := by simp
  rw [this, List.dropWhile_append]
  have hne : ¬ (z.reverse.dropWhile pyIsSpace).isEmpty := by
    intro hcon
    exact h (by unfold wsRtrim; simp [List.isEmpty_iff.mp hcon])
  simp [hne]

theorem wsStrip_cons_sp {c : Char} (y : List Char) (h : pyIsSpace c = true) :
    wsStrip (c :: y) = wsStrip y := by
  unfold wsStrip wsLtrim
  rw [List.dropWhile_cons_of_pos h]

theorem collapseGo_true (r : List Char) :
    collapseGo true r = collapseGo false (r.dropWhile pyIsSpace) := by
  induction r with
  | nil => rfl
  | cons c r ih =>
    by_cases h : pyIsSpace c = true
    · rw [List.dropWhile_cons_of_pos h, ← ih]
      simp [collapseGo, h]
    · rw [List.dropWhile_cons_of_neg h]
      simp [collapseGo, h]

theorem wsCollapse_nil : wsCollapse [] = [] := rfl

theorem wsCollapse_cons_sp {c : Char} (r : List Char) (h : pyIsSpace c = true) :
    wsCollapse (c :: r) = ' ' :: wsCollapse (r.dropWhile pyIsSpace) := by
  unfold wsCollapse
  simp [collapseGo, h, collapseGo_true]

theorem wsCollapse_cons_nonsp {c : Char} (r : List Char) (h : pyIsSpace c = false) :
    wsCollapse (c :: r) = c :: wsCollapse r := by
  unfold wsCollapse
  simp [collapseGo, h]

theorem wsCollapse_append_nonsp (w r : List Char)
    (hw : ∀ a ∈ w, pyIsSpace a = false) :
    wsCollapse (w ++ r) = w ++ wsCollapse r := by
  induction w with
  | nil => rfl
  | cons c w ih =>
    rw [List.cons_append, wsCollapse_cons_nonsp _ (hw c (by simp)),
      ih (fun a ha => hw a (by simp [ha])), List.cons_append]

/-- Splitting off the first word: `tokensL` on a nonspace word followed by a
list that is empty or starts with whitespace. -/
theorem tokensL_word_append (c : Char) (w z : List Char)
    (hc : pyIsSpace c = false) (hw : ∀ a ∈ w, pyIsSpace a = false)
    (hz : z = [] ∨ ∃ d z', z = d :: z' ∧ pyIsSpace d = true) :
    tokensL ((c :: w) ++ z) = (c :: w) :: tokensL z := by
  have hwpos : ∀ a ∈ w, (fun x => !pyIsSpace x) a = true := by
    intro a ha
    simp [hw a ha]
  have htake : z.takeWhile (fun x => !pyIsSpace x) = [] := by
    rcases hz with rfl | ⟨d, z', rfl, hd⟩
    · rfl
    · exact List.takeWhile_cons_of_neg (by simp [hd])
  have hdrop : z.dropWhile (fun x => !pyIsSpace x) = z := by
    rcases hz with rfl | ⟨d, z', rfl, hd⟩
    · rfl
    · exact List.dropWhile_cons_of_neg (by simp [hd])
  rw [List.cons_append, tokensL_cons_nonsp _ hc,
    List.takeWhile_append_of_pos hwpos, List.dropWhile_append_of_pos hwpos,
    htake, hdrop, List.append_nil]

theorem head_dropWhile_false {p : Char → Bool} {l : List Char} {d : Char}
    {u : List Char} (h : l.dropWhile p = d :: u) : p d = false := by
  have h2 := List.head?_dropWhile_not p l
  rw [h] at h2
  simpa using h2

/-- `rtrim` of a collapsed list that is empty or starts with whitespace is the
`joinRest` of its words. -/
theorem rtrimCollapse_aux : ∀ n : Nat, ∀ r : List Char, r.length ≤ n →
    (r = [] ∨ ∃ c r', r = c :: r' ∧ pyIsSpace c = true) →
    wsRtrim (wsCollapse r) = joinRest (tokensL r) := by
  intro n
  induction n with
  | zero =>
    intro r hr _
    have hnil : r = [] := by
      cases r with
      | nil => rfl
      | cons a as => simp at hr
    subst hnil
    rw [wsCollapse_nil, wsRtrim_nil, tokensL_nil]
    rfl
  | succ n ih =>
    intro r hr hform
    rcases hform with rfl | ⟨c, r₂, rfl, hc⟩
    · rw [wsCollapse_nil, wsRtrim_nil, tokensL_nil]
      rfl
    · rw [wsCollapse_cons_sp _ hc]
      have hr₂ : r₂.length ≤ n := by
        simp only [List.length_cons] at hr
        omega
      cases hmu : r₂.dropWhile pyIsSpace with
      | nil =>
        have h1 : wsRtrim (' ' :: wsCollapse []) = [] := by decide
        rw [wsCollapse_nil] at h1 ⊢
        rw [h1, tokensL_cons_sp _ hc, ← tokensL_ltrim r₂, hmu, tokensL_nil]
        rfl
      | cons d u =>
        have hd : pyIsSpace d = false := head_dropWhile_false hmu
        have hulen : u.length < r₂.length := by
          have := length_dropWhile_le pyIsSpace r₂
          rw [hmu] at this
          simp only [List.length_cons] at this
          omega
        have hw_all : ∀ a ∈ d :: u.takeWhile (fun x => !pyIsSpace x),
            pyIsSpace a = false := by
          intro a ha
          rcases List.mem_cons.mp ha with rfl | hmem
          · exact hd
          · have := List.mem_takeWhile_imp hmem
            simpa using this
        have hsplit : d :: u =
            (d :: u.takeWhile (fun x => !pyIsSpace x)) ++
              u.dropWhile (fun x => !pyIsSpace x) := by
          rw [List.cons_append, List.takeWhile_append_dropWhile]
        have hcol : wsCollapse (d :: u) =
            (d :: u.takeWhile (fun x => !pyIsSpace x)) ++
              wsCollapse (u.dropWhile (fun x => !pyIsSpace x)) := by
          conv_lhs => rw [hsplit]
          exact wsCollapse_append_nonsp _ _ hw_all
        have hrest_form : u.dropWhile (fun x => !pyIsSpace x) = [] ∨
            ∃ e rest', u.dropWhile (fun x => !pyIsSpace x) = e :: rest' ∧
              pyIsSpace e = true := by
          cases hrw : u.dropWhile (fun x => !pyIsSpace x) with
          | nil => exact Or.inl rfl
          | cons e rest' =>
            refine Or.inr ⟨e, rest', rfl, ?_⟩
            have := head_dropWhile_false hrw
            simpa using this
        have hih : wsRtrim (wsCollapse (u.dropWhile (fun x => !pyIsSpace x))) =
            joinRest (tokensL (u.dropWhile (fun x => !pyIsSpace x))) := by
          refine ih _ ?_ hrest_form
          have := length_dropWhile_le (fun x => !pyIsSpace x) u
          omega
        have hrt : wsRtrim ((d :: u.takeWhile (fun x => !pyIsSpace x)) ++
            wsCollapse (u.dropWhile (fun x => !pyIsSpace x))) =
            (d :: u.takeWhile (fun x => !pyIsSpace x)) ++
              wsRtrim (wsCollapse (u.dropWhile (fun x => !pyIsSpace x))) :=
          wsRtrim_append_nonsp _ _ hw_all
        rw [hcol, wsRtrim_cons_of_ne_nil _ _ (by rw [hrt]; simp), hrt, hih,
          tokensL_cons_sp _ hc, ← tokensL_ltrim r₂, hmu, tokensL_cons_nonsp _ hd]
        rfl

/-- Core cleanup characterisation for lists that are empty or start with a
non-whitespace character. -/
theorem stripCollapse_head (l : List Char)
    (hl : l = [] ∨ ∃ c r, l = c :: r ∧ pyIsSpace c = false) :
    wsStrip (wsCollapse l) = joinWords (tokensL l) := by
  rcases hl with rfl | ⟨c, r, rfl, hc⟩
  · rw [wsCollapse_nil, tokensL_nil]
    rfl
  · have hw_all : ∀ a ∈ c :: r.takeWhile (fun x => !pyIsSpace x),
        pyIsSpace a = false := by
      intro a ha
      rcases List.mem_cons.mp ha with rfl | hmem
      · exact hc
      · have := List.mem_takeWhile_imp hmem
        simpa using this
    have hsplit : c :: r =
        (c :: r.takeWhile (fun x => !pyIsSpace x)) ++
          r.dropWhile (fun x => !pyIsSpace x) := by
      rw [List.cons_append, List.takeWhile_append_dropWhile]
    have hrest_form : r.dropWhile (fun x => !pyIsSpace x) = [] ∨
        ∃ e rest', r.dropWhile (fun x => !pyIsSpace x) = e :: rest' ∧
          pyIsSpace e = true := by
      cases hrw : r.dropWhile (fun x => !pyIsSpace x) with
      | nil => exact Or.inl rfl
      | cons e rest' =>
        refine Or.inr ⟨e, rest', rfl, ?_⟩
        have := head_dropWhile_false hrw
        simpa using this
    have hcol : wsCollapse (c :: r) =
        (c :: r.takeWhile (fun x => !pyIsSpace x)) ++
          wsCollapse (r.dropWhile (fun x => !pyIsSpace x)) := by
      conv_lhs => rw [hsplit]
      exact wsCollapse_append_nonsp _ _ hw_all
    have hltrim : wsLtrim ((c :: r.takeWhile (fun x => !pyIsSpace x)) ++
        wsCollapse (r.dropWhile (fun x => !pyIsSpace x))) =
        (c :: r.takeWhile (fun x => !pyIsSpace x)) ++
          wsCollapse (r.dropWhile (fun x => !pyIsSpace x)) := by
      unfold wsLtrim
      rw [List.cons_append]
      exact List.dropWhile_cons_of_neg (by simp [hc])
    rw [hcol]
    unfold wsStrip
    rw [hltrim, wsRtrim_append_nonsp _ _ hw_all,
      rtrimCollapse_aux (r.dropWhile (fun x => !pyIsSpace x)).length _ le_rfl
        hrest_form,
      tokensL_cons_nonsp _ hc]
    rfl

/-- The code's cleanup `re.sub(r'\s+', ' ', s).strip()` equals the single-space
join of the whitespace-separated words of `s`. -/
theorem stripCollapse_eq_joinWords (l : List Char) :
    wsStrip (wsCollapse l) = joinWords (tokensL l) := by
  cases l with
  | nil => exact stripCollapse_head [] (Or.inl rfl)
  | cons c r =>
    by_cases hc : pyIsSpace c = true
    · have hform : r.dropWhile pyIsSpace = [] ∨
          ∃ d u, r.dropWhile pyIsSpace = d :: u ∧ pyIsSpace d = false := by
        cases hrw : r.dropWhile pyIsSpace with
        | nil => exact Or.inl rfl
        | cons d u => exact Or.inr ⟨d, u, rfl, head_dropWhile_false hrw⟩
      rw [wsCollapse_cons_sp _ hc, wsStrip_cons_sp _ pyIsSpace_space,
        stripCollapse_head _ hform, tokensL_ltrim, tokensL_cons_sp _ hc]
    · exact stripCollapse_head _ (Or.inr ⟨c, r, rfl, by simpa using hc⟩)

theorem tokensL_append_space_aux : ∀ n : Nat, ∀ a : List Char, a.length ≤ n →
    ∀ b : List Char, tokensL (a ++ ' ' :: b) = tokensL a ++ tokensL b := by
  intro n
  induction n with
  | zero =>
    intro a ha b
    have hnil : a = [] := by
      cases a with
      | nil => rfl
      | cons x xs => simp at ha
    subst hnil
    rw [List.nil_append, tokensL_cons_sp _ pyIsSpace_space, tokensL_nil,
      List.nil_append]
  | succ n ih =>
    intro a ha b
    cases a with
    | nil =>
      rw [List.nil_append, tokensL_cons_sp _ pyIsSpace_space, tokensL_nil,
        List.nil_append]
    | cons c a' =>
      have ha' : a'.length ≤ n := by
        simp only [List.length_cons] at ha
        omega
      by_cases hc : pyIsSpace c = true
      · rw [List.cons_append, tokensL_cons_sp _ hc, tokensL_cons_sp _ hc]
        exact ih a' ha' b
      · have hc' : pyIsSpace c = false := by simpa using hc
        have hwpos : ∀ x ∈ a'.takeWhile (fun x => !pyIsSpace x),
            (fun x => !pyIsSpace x) x = true := by
          intro x hx
          have h1 : pyIsSpace x = false := by
            simpa using List.mem_takeWhile_imp hx
          simp [h1]
        have hsplit : a' = a'.takeWhile (fun x => !pyIsSpace x) ++
            a'.dropWhile (fun x => !pyIsSpace x) :=
          (List.takeWhile_append_dropWhile _ _).symm
        have htake : (a' ++ ' ' :: b).takeWhile (fun x => !pyIsSpace x) =
            a'.takeWhile (fun x => !pyIsSpace x) := by
          conv_lhs => rw [hsplit]
          rw [List.append_assoc, List.takeWhile_append_of_pos hwpos]
          have : ((a'.dropWhile (fun x => !pyIsSpace x)) ++ ' ' :: b).takeWhile
              (fun x => !pyIsSpace x) = [] := by
            cases hrw : a'.dropWhile (fun x => !pyIsSpace x) with
            | nil =>
              rw [List.nil_append]
              exact List.takeWhile_cons_of_neg (by simp [pyIsSpace_space])
            | cons e rest =>
              have he := head_dropWhile_false hrw
              rw [List.cons_append]
              exact List.takeWhile_cons_of_neg (by simpa using he)
          rw [this, List.append_nil]
        have hdrop : (a' ++ ' ' :: b).dropWhile (fun x => !pyIsSpace x) =
            a'.dropWhile (fun x => !pyIsSpace x) ++ ' ' :: b := by
          conv_lhs => rw [hsplit]
          rw [List.append_assoc, List.dropWhile_append_of_pos hwpos]
          cases hrw : a'.dropWhile (fun x => !pyIsSpace x) with
          | nil =>
            rw [List.nil_append]
            exact List.dropWhile_cons_of_neg (by simp [pyIsSpace_space])
          | cons e rest =>
            have he := head_dropWhile_false hrw
            rw [List.cons_append]
            exact List.dropWhile_cons_of_neg (by simpa using he)
        rw [List.cons_append, tokensL_cons_nonsp _ hc', htake, hdrop,
          tokensL_cons_nonsp _ hc']
        cases hrw : a'.dropWhile (fun x => !pyIsSpace x) with
        | nil =>
          rw [List.nil_append, tokensL_cons_sp _ pyIsSpace_space, tokensL_nil]
          rfl
        | cons e rest =>
          have he : pyIsSpace e = true := by
            have := head_dropWhile_false hrw
            simpa using this
          have hrest : rest.length ≤ n := by
            have := length_dropWhile_le (fun x => !pyIsSpace x) a'
            rw [hrw] at this
            simp only [List.length_cons] at this
            omega
          rw [List.cons_append, tokensL_cons_sp _ he, tokensL_cons_sp _ he,
            ih rest hrest b]
          rfl

theorem tokensL_append_space (a b : List Char) :
    tokensL (a ++ ' ' :: b) = tokensL a ++ tokensL b :=
  tokensL_append_space_aux a.length a le_rfl b

theorem tokensL_join (ts : List (List Char)) :
    tokensL (joinWords ts) = (ts.map tokensL).flatten := by
  induction ts with
  | nil => simp [joinWords, tokensL_nil]
  | cons t ts ih =>
    cases ts with
    | nil => simp [joinWords, joinRest]
    | cons t' ts₂ =>
      have hjw : joinWords (t :: t' :: ts₂) = t ++ ' ' :: joinWords (t' :: ts₂) := by
        simp [joinWords, joinRest]
      rw [hjw, tokensL_append_space, ih]
      simp

theorem tokensL_rtrim_aux : ∀ n : Nat, ∀ l : List Char, l.length ≤ n →
    tokensL (wsRtrim l) = tokensL l := by
  intro n
  induction n with
  | zero =>
    intro l hl
    have hnil : l = [] := by
      cases l with
      | nil => rfl
      | cons x xs => simp at hl
    subst hnil
    rw [wsRtrim_nil]
  | succ n ih =>
    intro l hl
    cases l with
    | nil => rw [wsRtrim_nil]
    | cons c r =>
      have hr : r.length ≤ n := by
        simp only [List.length_cons] at hl
        omega
      by_cases hc : pyIsSpace c = true
      · by_cases hz : wsRtrim r = []
        · have hall : ∀ a ∈ c :: r, pyIsSpace a = true := by
            intro a ha
            rcases List.mem_cons.mp ha with rfl | hmem
            · exact hc
            · exact (wsRtrim_eq_nil_iff r).mp hz a hmem
          rw [(wsRtrim_eq_nil_iff (c :: r)).mpr hall, tokensL_nil,
            tokensL_of_all_sp _ hall]
        · rw [wsRtrim_cons_of_ne_nil _ _ hz, tokensL_cons_sp _ hc, ih r hr,
            tokensL_cons_sp _ hc]
      · have hc' : pyIsSpace c = false := by simpa using hc
        have hw_all : ∀ a ∈ r.takeWhile (fun x => !pyIsSpace x),
            pyIsSpace a = false := by
          intro a ha
          have := List.mem_takeWhile_imp ha
          simpa using this
        have hsplit : c :: r = (c :: r.takeWhile (fun x => !pyIsSpace x)) ++
            r.dropWhile (fun x => !pyIsSpace x) := by
          rw [List.cons_append, List.takeWhile_append_dropWhile]
        have hrest_form : ∀ z, wsRtrim (r.dropWhile (fun x => !pyIsSpace x)) = z →
            z = [] ∨ ∃ e z', z = e :: z' ∧ pyIsSpace e = true := by
          intro z hzdef
          cases hrw : r.dropWhile (fun x => !pyIsSpace x) with
          | nil =>
            rw [hrw, wsRtrim_nil] at hzdef
            exact Or.inl hzdef.symm
          | cons e rest =>
            have he : pyIsSpace e = true := by
              have := head_dropWhile_false hrw
              simpa using this
            by_cases hz2 : wsRtrim rest = []
            · have hall : ∀ a ∈ e :: rest, pyIsSpace a = true := by
                intro a ha
                rcases List.mem_cons.mp ha with rfl | hmem
                · exact he
                · exact (wsRtrim_eq_nil_iff rest).mp hz2 a hmem
              rw [hrw, (wsRtrim_eq_nil_iff (e :: rest)).mpr hall] at hzdef
              exact Or.inl hzdef.symm
            · rw [hrw, wsRtrim_cons_of_ne_nil _ _ hz2] at hzdef
              exact Or.inr ⟨e, wsRtrim rest, hzdef.symm, he⟩
        have hrestlen : (r.dropWhile (fun x => !pyIsSpace x)).length ≤ n := by
          have := length_dropWhile_le (fun x => !pyIsSpace x) r
          omega
        conv_lhs => rw [hsplit]
        rw [wsRtrim_append_nonsp _ _ (by
          intro a ha
          rcases List.mem_cons.mp ha with rfl | hmem
          · exact hc'
          · exact hw_all a hmem),
          tokensL_word_append c _ _ hc' hw_all (hrest_form _ rfl),
          ih _ hrestlen, tokensL_cons_nonsp _ hc']

theorem tokensL_wsStrip (t : List Char) : tokensL (wsStrip t) = tokensL t := by
  unfold wsStrip
  rw [tokensL_rtrim_aux (wsLtrim t).length _ le_rfl]
  exact tokensL_ltrim t

/-- Pre-stripping each fragment and dropping empty fragments before the
space-join does not change the cleaned-up result. -/
theorem cleanup_filter_strip_join (ts : List (List Char)) :
    wsCleanup (joinWords ((ts.filter (fun t => !t.isEmpty)).map wsStrip)) =
    wsCleanup (joinWords ts) := by
  unfold wsCleanup
  rw [stripCollapse_eq_joinWords, stripCollapse_eq_joinWords, tokensL_join,
    tokensL_join]
  congr 1
  induction ts with
  | nil => rfl
  | cons t ts ih =>
    by_cases h : t.isEmpty = true
    · have ht : t = [] := List.isEmpty_iff.mp h
      subst ht
      simp only [List.filter_cons, List.isEmpty_nil, Bool.not_true,
        Bool.false_eq_true, if_false, List.map_cons, List.flatten_cons,
        tokensL_nil, List.nil_append]
      exact ih
    · simp only [List.filter_cons, Bool.not_eq_true', eq_false_of_ne_true h,
        Bool.not_false, if_true, List.map_cons, List.flatten_cons,
        tokensL_wsStrip, ih]

/-! ## Helper lemmas about the generator validation -/

theorem missing_empty_flags (gen : GenOut)
    (h : (missingRequiredFields gen).isEmpty = true) :
    strFieldMissing gen.video_title = false ∧
    strFieldMissing gen.channel_name = false ∧
    strFieldMissing gen.summary = false ∧
    gen.key_points.isEmpty = false ∧
    gen.timestamps.isEmpty = false := by
  have hnil : missingRequiredFields gen = [] := List.isEmpty_iff.mp h
  by_cases h1 : strFieldMissing gen.video_title <;>
  by_cases h2 : strFieldMissing gen.channel_name <;>
  by_cases h3 : strFieldMissing gen.summary <;>
  by_cases h4 : gen.key_points.isEmpty <;>
  by_cases h5 : gen.timestamps.isEmpty <;>
    simp_all [missingRequiredFields]

theorem goodNoteB_mkDbNote (gen : GenOut) (video : VideoMeta) (userId : Nat)
    (url : String) (freshId now : Nat)
    (h : (missingRequiredFields gen).isEmpty = true) :
    goodNoteB (mkDbNote gen video userId url freshId now) = true := by
  obtain ⟨h1, h2, h3, h4, h5⟩ := missing_empty_flags gen h
  rw [Bool.eq_false_iff] at h1 h2 h3
  simp only [strFieldMissing, ne_eq, Bool.or_eq_true, Bool.not_eq_true',
    not_or, Bool.not_eq_false] at h1 h2 h3
  simp [goodNoteB, mkDbNote, h1.1, h1.2, h2.1, h2.2, h3.1, h3.2, h4, h5]

/-! ## Claims -/

/-- C1: for every user id and URL, if a note with that
(user_id, youtube_url) pair already exists (it is what the pre-check query
finds), a second call to `create_note` returns that existing note without
invoking the transcript acquirer or the note generator, and leaves the
database — hence the stored row, including its `updated_at` field —
unchanged. -/
theorem c1_create_note_idempotent
    (acquire : Except PyExc VideoMeta) (jsonParse : String → Option NoteData)
    (gemini : Except String String) (userId : Nat) (url : String)
    (db : List Note) (freshId now : Nat) (n : Note)
    (h : db.find? (noteMatches userId url) = some n) :
    createNote acquire jsonParse gemini userId url db freshId now =
      ⟨.ok n, db, false, false⟩ := by
  unfold createNote
  rw [h]

theorem c1_create_note_idempotent_witness :
    [sampleNote].find? (noteMatches 7 "https://youtu.be/abc") =
      some sampleNote ∧
    createNote (.error (.other "offline")) (fun _ => none) (.error "offline")
      7 "https://youtu.be/abc" [sampleNote] 9 9 =
      ⟨.ok sampleNote, [sampleNote], false, false⟩ :=
  ⟨rfl, c1_create_note_idempotent _ _ _ _ _ _ _ _ _ rfl⟩

/-- C2 counterexample: `update_note` does not preserve the invariant and does
not reject: starting from a database whose only note satisfies the invariant,
an update that sets `summary` to the empty string succeeds (returns the note
instead of raising) and stores a row with an empty summary. -/
theorem c2_counterexample :
    goodNoteB sampleNote = true ∧
    (updateNote 1 7 { summary := .setVal "" } [sampleNote] 11).result.map
      (fun n => n.summary) = .ok (some (.jstr "")) ∧
    (updateNote 1 7 { summary := .setVal "" } [sampleNote] 11).result.map
      goodNoteB = .ok false ∧
    (updateNote 1 7 { summary := .setVal "" } [sampleNote] 11).db.all
      goodNoteB = false :=
  ⟨by decide, rfl, rfl, by decide⟩

/-- C2 amended: `create_note` maintains the invariant — every row present
after a `create_note` run is either a pre-existing row or satisfies the
invariant (non-blank title, channel and summary, non-empty
`key_points`/`timestamps`), the pipeline rejecting the request rather than
persisting a partial note.  `update_note`, however, performs no such
validation and can store empty values (see the counterexample). -/
theorem c2_amended_create_invariant
    (acquire : Except PyExc VideoMeta) (jsonParse : String → Option NoteData)
    (gemini : Except String String) (userId : Nat) (url : String)
    (db : List Note) (freshId now : Nat) :
    ∀ n ∈ (createNote acquire jsonParse gemini userId url db freshId now).db,
      n ∈ db ∨ goodNoteB n = true := by
  intro n hn
  unfold createNote at hn
  split at hn
  · exact Or.inl hn
  · split at hn
    · exact Or.inl hn
    · split at hn
      · exact Or.inl hn
      · split at hn
        · exact Or.inl hn
        · split at hn
          next hmiss =>
            rcases List.mem_append.mp hn with h | h
            · exact Or.inl h
            · rcases List.mem_singleton.mp h with rfl
              exact Or.inr (goodNoteB_mkDbNote _ _ _ _ _ _ hmiss)
          next => exact Or.inl hn

theorem c2_amended_create_invariant_witness :
    mkDbNote (buildResult fullNoteData "A video" "A channel") sampleMeta 7
        "https://youtu.be/abc" 1 2 ∈
      (createNote (.ok sampleMeta) (fun _ => some fullNoteData) (.ok "resp")
        7 "https://youtu.be/abc" [] 1 2).db ∧
    (mkDbNote (buildResult fullNoteData "A video" "A channel") sampleMeta 7
        "https://youtu.be/abc" 1 2 ∈ ([] : List Note) ∨
      goodNoteB (mkDbNote (buildResult fullNoteData "A video" "A channel")
        sampleMeta 7 "https://youtu.be/abc" 1 2) = true) :=
  ⟨List.Mem.head _,
   c2_amended_create_invariant (.ok sampleMeta) (fun _ => some fullNoteData)
     (.ok "resp") 7 "https://youtu.be/abc" [] 1 2 _ (List.Mem.head _)⟩

theorem strFieldMissing_iff (v : JVal) :
    strFieldMissing v = true ↔ narrativeBad v := by
  simp [strFieldMissing, narrativeBad, Bool.or_eq_true, Bool.not_eq_true']

theorem mem_ite_singleton {c : Prop} [Decidable c] (x name : String) :
    (name ∈ (if c then [x] else ([] : List String))) ↔ (c ∧ name = x) := by
  by_cases h : c <;> simp [h]

/-- C3: for every generated-note candidate (the structured result the
generator validates, after `.get` defaulting and list coercion) in which one
or more required fields is empty, blank after trimming, or not a non-empty
list, the validation fails with an internal-error condition whose detail
names exactly the missing fields — all of them, and no field that is
present — rather than failing fast on the first one: membership in the
reported list is equivalent to the field being missing. -/
theorem c3_validation_names_missing (r : GenOut) :
    (∀ name, name ∈ missingRequiredFields r ↔
      ((name = "video_title" ∧ narrativeBad r.video_title) ∨
       (name = "channel_name" ∧ narrativeBad r.channel_name) ∨
       (name = "summary" ∧ narrativeBad r.summary) ∨
       (name = "key_points" ∧ r.key_points = []) ∨
       (name = "timestamps" ∧ r.timestamps = []))) ∧
    ((narrativeBad r.video_title ∨ narrativeBad r.channel_name ∨
      narrativeBad r.summary ∨ r.key_points = [] ∨ r.timestamps = []) →
      validateGen r = .error (.http
        ⟨500, missingDetail (missingRequiredFields r)⟩)) := by
  have hmem : ∀ name, name ∈ missingRequiredFields r ↔
      ((name = "video_title" ∧ narrativeBad r.video_title) ∨
       (name = "channel_name" ∧ narrativeBad r.channel_name) ∨
       (name = "summary" ∧ narrativeBad r.summary) ∨
       (name = "key_points" ∧ r.key_points = []) ∨
       (name = "timestamps" ∧ r.timestamps = [])) := by
    intro name
    simp only [missingRequiredFields, List.mem_append, mem_ite_singleton,
      strFieldMissing_iff, List.isEmpty_iff]
    tauto
  refine ⟨hmem, fun hbad => ?_⟩
  have hne : ¬ (missingRequiredFields r).isEmpty = true := by
    rw [List.isEmpty_iff]
    intro hnil
    rcases hbad with h | h | h | h | h
    · have hm := (hmem "video_title").mpr (Or.inl ⟨rfl, h⟩)
      rw [hnil] at hm
      simp at hm
    · have hm := (hmem "channel_name").mpr (Or.inr (Or.inl ⟨rfl, h⟩))
      rw [hnil] at hm
      simp at hm
    · have hm := (hmem "summary").mpr (Or.inr (Or.inr (Or.inl ⟨rfl, h⟩)))
      rw [hnil] at hm
      simp at hm
    · have hm := (hmem "key_points").mpr
        (Or.inr (Or.inr (Or.inr (Or.inl ⟨rfl, h⟩))))
      rw [hnil] at hm
      simp at hm
    · have hm := (hmem "timestamps").mpr
        (Or.inr (Or.inr (Or.inr (Or.inr ⟨rfl, h⟩))))
      rw [hnil] at hm
      simp at hm
  unfold validateGen
  rw [if_neg hne]

theorem c3_validation_names_missing_witness :
    (narrativeBad partialGen.video_title ∨
     narrativeBad partialGen.channel_name ∨ narrativeBad partialGen.summary ∨
     partialGen.key_points = [] ∨ partialGen.timestamps = []) ∧
    validateGen partialGen = .error (.http
      ⟨500, missingDetail (missingRequiredFields partialGen)⟩) :=
  ⟨Or.inr (Or.inr (Or.inl (by decide))),
   (c3_validation_names_missing partialGen).2
     (Or.inr (Or.inr (Or.inl (by decide))))⟩

/-- C4: on JSON parse failure the generator substitutes the deterministic
fallback object: `video_title`/`channel_name` copied from the input,
`summary` the first 1000 characters of the (unparsed) response text,
`key_points` a single-element list, and `timestamps` a single-element list
whose entry has time `"00:00"`; in particular the fallback's `key_points`
and `timestamps` are non-empty (also after the list coercion). -/
theorem c4_parse_failure_fallback (rt vt cn : String) :
    (∀ jp : String → Option NoteData, jp rt = none →
      noteDataOf jp rt vt cn = fallbackNoteData rt vt cn) ∧
    fallbackNoteData rt vt cn =
      { video_title := some (.jstr vt)
        channel_name := some (.jstr cn)
        summary := some (.jstr (pySlice1000 rt))
        key_points := some (.jlist [.jstr "Key point extracted from video"])
        timestamps := some (.jlist [.jobj
          [("time", .jstr "00:00"),
           ("description", .jstr
             "Video content extracted (parsing failed, using fallback)")]]) } ∧
    pySlice1000 rt = ⟨rt.data.take 1000⟩ ∧
    (buildResult (fallbackNoteData rt vt cn) vt cn).key_points ≠ [] ∧
    (buildResult (fallbackNoteData rt vt cn) vt cn).timestamps ≠ [] := by
  refine ⟨?_, rfl, ?_, ?_, ?_⟩
  · intro jp hjp
    unfold noteDataOf
    rw [hjp]
  · unfold pySlice1000
    by_cases h : rt.data.length > 1000
    · rw [if_pos h]
    · rw [if_neg h]
      obtain ⟨l⟩ := rt
      have hle : l.take 1000 = l := List.take_of_length_le (by
        simpa using Nat.le_of_not_lt h)
      exact congrArg String.mk hle.symm
  · simp [buildResult, fallbackNoteData, coerceList]
  · simp [buildResult, fallbackNoteData, coerceList]

theorem c4_parse_failure_fallback_witness :
    ((fun _ : String => (none : Option NoteData)) "garbage output" = none) ∧
    noteDataOf (fun _ => none) "garbage output" "A video" "A channel" =
      fallbackNoteData "garbage output" "A video" "A channel" :=
  ⟨rfl,
   (c4_parse_failure_fallback "garbage output" "A video" "A channel").1
     (fun _ => none) rfl⟩

/-- C10 (implicit): the fallback does not guarantee a non-empty summary.
When the model response is empty (or whitespace-only, hence empty) after
fence stripping and JSON parsing fails, the fallback's `summary` is the
empty string, so the generator's own validation still fails with an
internal-error condition naming `summary` — the fallback guarantees only
`key_points` and `timestamps`, not that validation passes. -/
theorem c10_empty_response_fallback_summary (raw vt cn sub url : String)
    (jp : String → Option NoteData)
    (hempty : gemResponseText raw = "")
    (hparse : jp "" = none) :
    (fallbackNoteData (gemResponseText raw) vt cn).summary =
      some (.jstr "") ∧
    "summary" ∈ missingRequiredFields
      (buildResult (fallbackNoteData (gemResponseText raw) vt cn) vt cn) ∧
    (∃ e, generateNoteWithGemini jp (.ok raw) sub url vt cn = .error e) := by
  rw [hempty]
  have hsum : strFieldMissing
      (buildResult (fallbackNoteData "" vt cn) vt cn).summary = true := rfl
  have hmem : "summary" ∈ missingRequiredFields
      (buildResult (fallbackNoteData "" vt cn) vt cn) := by
    simp [missingRequiredFields, hsum]
  refine ⟨rfl, hmem, ?_⟩
  have hne : ¬ (missingRequiredFields
      (buildResult (fallbackNoteData "" vt cn) vt cn)).isEmpty = true := by
    rw [List.isEmpty_iff]
    intro hnil
    rw [hnil] at hmem
    simp at hmem
  show ∃ e, wrapGen (validateGen (buildResult
      (noteDataOf jp (gemResponseText raw) vt cn) vt cn)) = .error e
  rw [hempty]
  unfold noteDataOf
  rw [hparse]
  unfold validateGen
  rw [if_neg hne]
  exact ⟨_, rfl⟩

theorem c10_empty_response_fallback_summary_witness :
    gemResponseText "```json```" = "" ∧
    ((fallbackNoteData (gemResponseText "```json```") "A video"
        "A channel").summary = some (.jstr "") ∧
      "summary" ∈ missingRequiredFields (buildResult
        (fallbackNoteData (gemResponseText "```json```") "A video"
          "A channel") "A video" "A channel") ∧
      (∃ e, generateNoteWithGemini (fun _ => none) (.ok "```json```") "sub"
        "url" "A video" "A channel" = .error e)) :=
  ⟨by decide,
   c10_empty_response_fallback_summary "```json```" "A video" "A channel"
     "sub" "url" (fun _ => none) (by decide) rfl⟩

/-- C5: for every well-formed caption document (whose root is the transcript
element, not itself a `<text>` element), the caption parser's output equals
the concatenation, in document order and separated by single spaces, of the
text content of every `<text>` element, with consecutive whitespace collapsed
to single spaces and both ends trimmed; and the markup
`<text start="0">Hello</text><text start="1">world</text>` (which has two
root elements, so `ET.fromstring` raises and the parse outcome is `none`)
yields exactly `"Hello world"`. -/
theorem c5_caption_parser_refines_spec :
    (∀ root : Xml, root.tag ≠ "text" →
      astExtract root = specCaptionText root) ∧
    extractTextFromXmlTranscript none
      "<text start=\"0\">Hello</text><text start=\"1\">world</text>" =
      "Hello world" := by
  constructor
  · intro root hroot
    obtain ⟨tag, t, cs⟩ := root
    have htag : (tag == "text") = false := by
      simp only [Xml.tag] at hroot
      simpa using hroot
    unfold astExtract specCaptionText
    rw [allTextElems_def, htag]
    simp only [Bool.false_eq_true, if_false, List.nil_append]
    exact congrArg String.mk (cleanup_filter_strip_join _)
  · decide

theorem c5_caption_parser_refines_spec_witness :
    sampleDoc.tag ≠ "text" ∧
    astExtract sampleDoc = specCaptionText sampleDoc :=
  ⟨by decide, c5_caption_parser_refines_spec.1 sampleDoc (by decide)⟩

/-- C6: the caption parser is total (the embedding is a Lean function, and
the Python function catches every exception): on parse failure it returns
the regex-extracted text between `<text...>` and `</text>` tags (stripped,
space-joined, whitespace-collapsed), and when that extraction yields no
match it returns the original input unmodified. -/
theorem c6_parser_never_raises (s : String) :
    (scanMatches s.data = [] → extractTextFromXmlTranscript none s = s) ∧
    (scanMatches s.data ≠ [] →
      extractTextFromXmlTranscript none s =
        ⟨wsCleanup (joinWords ((scanMatches s.data).map wsStrip))⟩) := by
  constructor
  · intro h
    unfold extractTextFromXmlTranscript fallbackExtract
    simp [h]
  · intro h
    unfold extractTextFromXmlTranscript fallbackExtract
    simp [List.isEmpty_iff, h]

theorem c6_parser_never_raises_witness :
    scanMatches ("plain, no markup".data) = [] ∧
    extractTextFromXmlTranscript none "plain, no markup" =
      "plain, no markup" :=
  ⟨by decide, (c6_parser_never_raises "plain, no markup").1 (by decide)⟩

/-- C7: when no note exists yet for the pair and the acquisition result's
transcript text is empty or blank, `create_note` terminates with the 404
not-found condition ("no captions/subtitles available"), surfaced unchanged
(the orchestrator's `except HTTPException: raise` passes it through), without
invoking the note generator and without persisting any row. -/
theorem c7_blank_transcript_not_found
    (jsonParse : String → Option NoteData) (gemini : Except String String)
    (userId : Nat) (url : String) (db : List Note) (freshId now : Nat)
    (video : VideoMeta)
    (hfind : db.find? (noteMatches userId url) = none)
    (hblank : pyStrip video.caption = "") :
    createNote (.ok video) jsonParse gemini userId url db freshId now =
      ⟨.error ⟨404, noCaptionsDetail⟩, db, true, false⟩ := by
  unfold createNote
  rw [hfind]
  have hc : (pyStrip video.caption == "") = true := by simp [hblank]
  simp [hc, orchWrap]

theorem c7_blank_transcript_not_found_witness :
    ([] : List Note).find? (noteMatches 7 "https://youtu.be/abc") = none ∧
    pyStrip blankMeta.caption = "" ∧
    createNote (.ok blankMeta) (fun _ => none) (.error "offline") 7
      "https://youtu.be/abc" [] 1 2 =
      ⟨.error ⟨404, noCaptionsDetail⟩, [], true, false⟩ :=
  ⟨rfl, by decide,
   c7_blank_transcript_not_found (fun _ => none) (.error "offline") 7
     "https://youtu.be/abc" [] 1 2 blankMeta rfl (by decide)⟩

/-- C8 counterexample: a failure already classified inside generation — the
validation `HTTPException` raised at line 330 — does NOT reach the caller
with its detail unchanged: the generator's own `except Exception` handler
catches it and wraps it in an additional
`"Failed to generate note with AI: 500: ..."` layer. -/
theorem c8_counterexample :
    errDetail (generateNoteWithGemini (fun _ => none) (.ok "") "sub" "url"
        "A video" "A channel") =
      "Failed to generate note with AI: 500: Failed to generate complete note. Missing required fields: summary. Please try again or choose a different video." ∧
    "Failed to generate note with AI: 500: Failed to generate complete note. Missing required fields: summary. Please try again or choose a different video." ≠
      "Failed to generate complete note. Missing required fields: summary. Please try again or choose a different video." :=
  ⟨by decide, by decide⟩

/-- C8 amended: the pass-through-without-wrapping policy holds at the
orchestrator boundary only: `create_note` re-raises a classified
`HTTPException` unchanged and converts an unknown exception into a 500
`"Failed to create note: ..."`; a generation failure reaches the caller with
whatever classification the generator surfaced.  The generator's own
`except Exception`, however, wraps even its internal classified errors in an
additional `"Failed to generate note with AI: {status}: {detail}"` layer. -/
theorem c8_amended_error_propagation
    (jsonParse : String → Option NoteData) (gemini : Except String String)
    (userId : Nat) (url : String) (db : List Note) (freshId now : Nat)
    (hfind : db.find? (noteMatches userId url) = none) :
    (∀ e : HTTPError,
      createNote (.error (.http e)) jsonParse gemini userId url db freshId
        now = ⟨.error e, db, true, false⟩) ∧
    (∀ m : String,
      createNote (.error (.other m)) jsonParse gemini userId url db freshId
        now =
        ⟨.error ⟨500, "Failed to create note: " ++ m⟩, db, true, false⟩) ∧
    (∀ (video : VideoMeta) (e : HTTPError),
      pyStrip video.caption ≠ "" →
      generateNoteWithGemini jsonParse gemini video.caption url video.title
        video.channel_name = .error e →
      createNote (.ok video) jsonParse gemini userId url db freshId now =
        ⟨.error e, db, true, true⟩) ∧
    (∀ e : HTTPError, wrapGen (.error (.http e)) =
      .error ⟨500, "Failed to generate note with AI: " ++
        (toString e.status ++ ": " ++ e.detail)⟩) := by
  refine ⟨?_, ?_, ?_, fun e => rfl⟩
  · intro e
    simp only [createNote, hfind, orchWrap]
  · intro m
    simp only [createNote, hfind]
    rfl
  · intro video e hcap hgen
    have hc : ¬ (pyStrip video.caption == "") = true := by simpa using hcap
    simp only [createNote, hfind, if_neg hc, hgen]

theorem c8_amended_error_propagation_witness :
    ([] : List Note).find? (noteMatches 7 "https://youtu.be/abc") = none ∧
    createNote (.error (.http ⟨404, "video not found"⟩)) (fun _ => none)
      (.error "offline") 7 "https://youtu.be/abc" [] 1 2 =
      ⟨.error ⟨404, "video not found"⟩, [], true, false⟩ :=
  ⟨rfl,
   (c8_amended_error_propagation (fun _ => none) (.error "offline") 7
     "https://youtu.be/abc" [] 1 2 rfl).1 ⟨404, "video not found"⟩⟩

/-- C9 counterexample: when the transcription call raises, the normalized
wav file is NOT deleted — it survives the failed run (and the raised
`HTTPException` is wrapped again by the function's outer handler). -/
theorem c9_counterexample :
    (getSubtitleFromAudio (.error "boom") "container.m4a" "u=abc" []).fs =
      ["abc.wav"] ∧
    errDetail
      (getSubtitleFromAudio (.error "boom") "container.m4a" "u=abc"
        []).result =
      "Failed to get subtitle from audio of YouTube video: 500: Failed to convert audio to text: boom" :=
  ⟨by decide, by decide⟩

/-- C9 amended: the downloaded container is deleted after transcoding on
both paths, and on success the wav file is deleted after the transcription
call returns (the final file set equals the initial one); but when the
transcription call raises, the wav file is not removed and survives. -/
theorem c9_amended_scratch_cleanup (df url : String) (fs : List String)
    (tr : Except String String)
    (hdf : df ∉ fs) (hwav : wavFileName url ∉ fs)
    (hne : wavFileName url ≠ df) :
    (∀ t, tr = .ok t →
      getSubtitleFromAudio tr df url fs = ⟨.ok t, fs⟩) ∧
    (∀ m, tr = .error m →
      (getSubtitleFromAudio tr df url fs).fs = fs ++ [wavFileName url] ∧
      wavFileName url ∈ (getSubtitleFromAudio tr df url fs).fs ∧
      df ∉ (getSubtitleFromAudio tr df url fs).fs ∧
      (getSubtitleFromAudio tr df url fs).result =
        .error ⟨500, "Failed to get subtitle from audio of YouTube video: " ++
          pyExcStr (.http
            ⟨500, "Failed to convert audio to text: " ++ m⟩)⟩) := by
  have hfs3 : (fs ++ [df, wavFileName url]).erase df =
      fs ++ [wavFileName url] := by
    rw [List.erase_append_right _ hdf, List.erase_cons_head]
  constructor
  · intro t htr
    subst htr
    unfold getSubtitleFromAudio
    rw [hfs3, List.erase_append_right _ hwav, List.erase_cons_head,
      List.append_nil]
  · intro m htr
    subst htr
    unfold getSubtitleFromAudio
    rw [hfs3]
    refine ⟨rfl, List.mem_append_right _ (List.mem_singleton.mpr rfl), ?_, rfl⟩
    intro hcon
    rcases List.mem_append.mp hcon with h | h
    · exact hdf h
    · exact hne (List.mem_singleton.mp h).symm

theorem c9_amended_scratch_cleanup_witness :
    ("container.m4a" ∉ ([] : List String)) ∧
    (wavFileName "u=abc" ∉ ([] : List String)) ∧
    wavFileName "u=abc" ≠ "container.m4a" ∧
    getSubtitleFromAudio (.ok "a transcript") "container.m4a" "u=abc" [] =
      ⟨.ok "a transcript", []⟩ :=
  ⟨by simp, by simp, by decide,
   (c9_amended_scratch_cleanup "container.m4a" "u=abc" [] (.ok "a transcript")
     (by simp) (by simp) (by decide)).1 "a transcript" rfl⟩

end YTNotes
